import Mathlib

/-!
Verification of the email-tracker server (src/server.js).

The server is a single Express application over an SQLite store with two
tables: a pixel registry (`pixels`) and an open-event log (`opens`).  This
file shallowly embeds the data model, the bot classifier, the pixel-serving
handler, pixel creation, and the four read views (status, history,
dashboard, activity) as executable Lean definitions, and proves the stated
properties about them.

Timestamps are modelled as `String` values compared lexicographically,
matching the TEXT comparison SQLite performs on `DATETIME` columns storing
`CURRENT_TIMESTAMP` strings.  The AUTOINCREMENT key of the `opens` table is
modelled by a `nextOpenId` counter carried in the store.
-/

namespace EmailTracker

/-- Row of the `pixels` table (server.js lines 143-149). -/
structure Pixel where
  id : String
  email_id : String
  recipient : String
  subject : String
  created_at : String
deriving DecidableEq

/-- Row of the `opens` table (server.js lines 151-160).  `id` is the
AUTOINCREMENT primary key; `is_bot` is stored as 0/1 and modelled as `Bool`. -/
structure OpenEvent where
  id : Nat
  pixel_id : String
  opened_at : String
  ip_address : Option String
  user_agent : String
  is_bot : Bool
  bot_reason : Option String
deriving DecidableEq

/-- The SQLite database: the two tables plus the AUTOINCREMENT counter of
the `opens` table. -/
structure Store where
  pixels : List Pixel
  opens : List OpenEvent
  nextOpenId : Nat
deriving DecidableEq

/-- A fresh database (AUTOINCREMENT keys start at 1). -/
def emptyStore : Store := { pixels := [], opens := [], nextOpenId := 1 }

/-- The bot user-agent substring list, verbatim from server.js lines 40-66. -/
def BOT_USER_AGENTS : List String :=
  [ "googlebot", "google-smtp", "googleimageproxy", "feedfetcher-google",
    "bingbot", "yahoo", "slurp", "duckduckbot", "baiduspider", "yandexbot",
    "facebookexternalhit", "twitterbot", "linkedinbot", "whatsapp",
    "slackbot", "telegrambot", "discordbot", "applebot", "pingdom",
    "uptimerobot", "monitor", "crawler", "spider", "bot/", "bot;" ]

/-- The Google image-proxy IP range list, verbatim from server.js lines 69-79. -/
def GOOGLE_IP_PREFIXES : List String :=
  [ "66.102.", "66.249.", "72.14.", "74.125.", "173.194.", "192.178.",
    "209.85.", "216.239.", "216.58." ]

/-- Lexicographic comparison of character lists by code point, the order
SQLite BINARY collation induces on UTF-8 text.  Defined as an executable
Bool so concrete runs reduce in the kernel. -/
def charListLt : List Char → List Char → Bool
  | [], [] => false
  | [], _ :: _ => true
  | _ :: _, [] => false
  | a :: as, b :: bs =>
    if a < b then true
    else if b < a then false
    else charListLt as bs

/-- Strict lexicographic order on strings (the comparison SQLite applies
to `opened_at > ?` on TEXT values). -/
def strLt (a b : String) : Bool :=
  charListLt a.toList b.toList

/-- Reflexive lexicographic order on strings. -/
def strLe (a b : String) : Bool :=
  !(strLt b a)

/-- ASCII lowercase of a string, character by character, mirroring what
`toLowerCase()` does on the ASCII user agents and patterns involved. -/
def strToLower (s : String) : String :=
  String.mk (s.toList.map Char.toLower)

/-- JavaScript `s.startsWith(pre)`. -/
def startsWithStr (s pre : String) : Bool :=
  pre.toList.isPrefixOf s.toList

/-- JavaScript `string.includes(pat)` on explicit character lists: `pat`
occurs contiguously in the scanned list. -/
def hasInfix (pat : List Char) : List Char → Bool
  | [] => pat.isEmpty
  | c :: rest => pat.isPrefixOf (c :: rest) || hasInfix pat rest

/-- JavaScript `s.includes(pat)`. -/
def containsSub (s pat : String) : Bool :=
  hasInfix pat.toList s.toList

/-- Result record of the classifier, `{isBot, reason}` in the source. -/
structure BotCheck where
  isBot : Bool
  reason : Option String
deriving DecidableEq

/-- The `for (const botPattern of BOT_USER_AGENTS)` loop of server.js
lines 118-122: first pattern contained in `ua`, scanning in list order. -/
def findBotPattern (ua : String) : List String → Option String
  | [] => none
  | pat :: rest => if containsSub ua pat then some pat else findBotPattern ua rest

/-- The `for (const prefix of GOOGLE_IP_PREFIXES)` loop of server.js
lines 126-130: first listed prefix that `ip` starts with. -/
def findIpRange (ip : String) : List String → Option String
  | [] => none
  | pre :: rest => if startsWithStr ip pre then some pre else findIpRange ip rest

/-- The classifier `isBot(userAgent, ip)` of server.js lines 114-134.
`ip` is `string | undefined` in the source; `if (ip)` is JavaScript
truthiness, false for `undefined` and for the empty string. -/
def isBot (userAgent : String) (ip : Option String) : BotCheck :=
  let ua := strToLower userAgent
  match findBotPattern ua BOT_USER_AGENTS with
  | some pat => { isBot := true, reason := some ("user-agent: " ++ pat) }
  | none =>
    match ip with
    | none => { isBot := false, reason := none }
    | some ipStr =>
      if ipStr == "" then { isBot := false, reason := none }
      else
        match findIpRange ipStr GOOGLE_IP_PREFIXES with
        | some pre => { isBot := true, reason := some ("ip-range: " ++ pre ++ "*") }
        | none => { isBot := false, reason := none }

/-- JavaScript truthiness of an optional string: `undefined` and `""` are
falsy, every other string is truthy. -/
def jsTruthyStr (v : Option String) : Bool :=
  match v with
  | none => false
  | some s => !(s == "")

/-- Modelled from the spec wording of the classifier (claim C4): first
matching substring of the fixed bot list in list order; otherwise, if the
source IP is present, the first matching prefix of the fixed IP-prefix
list; otherwise not a bot, with no reason. -/
def classifySpec (userAgent : String) (ip : Option String) : BotCheck :=
  match BOT_USER_AGENTS.find? (fun pat => containsSub (strToLower userAgent) pat) with
  | some pat => { isBot := true, reason := some ("user-agent: " ++ pat) }
  | none =>
    if jsTruthyStr ip then
      match GOOGLE_IP_PREFIXES.find? (fun pre => startsWithStr (ip.getD "") pre) with
      | some pre => { isBot := true, reason := some ("ip-range: " ++ pre ++ "*") }
      | none => { isBot := false, reason := none }
    else { isBot := false, reason := none }

/-- The base64 text of the 1x1 transparent GIF constant of server.js
lines 34-37; it decodes to 43 bytes. -/
def TRANSPARENT_GIF : String :=
  "R0lGODlhAQABAIAAAAAAAP///yH5BAEAAAAALAAAAAABAAEAAAIBRAA7"

/-- The image response built by `res.set({...}); res.send(TRANSPARENT_GIF)`
at server.js lines 250-257: body bytes plus the five headers. -/
structure GifResponse where
  body : String
  contentType : String
  contentLength : Nat
  cacheControl : String
  pragmaHeader : String
  expiresHeader : String
deriving DecidableEq

/-- The one response value the pixel route ever sends on its success path. -/
def gifResponse : GifResponse :=
  { body := TRANSPARENT_GIF
    contentType := "image/gif"
    contentLength := 43
    cacheControl := "no-store, no-cache, must-revalidate, proxy-revalidate"
    pragmaHeader := "no-cache"
    expiresHeader := "0" }

/-- What the fetching mail client observes from `GET /v1/:pixelId.gif`:
either the image response, or the Express default 500 error page produced
when an uncaught exception escapes the handler. -/
inductive PixelFetchResult where
  | gif (r : GifResponse)
  | serverError
deriving DecidableEq

/-- Outcome of the synchronous `stmt.run(...)` INSERT: it either succeeds
or throws (e.g. SQLITE_FULL). -/
inductive WriteOutcome where
  | ok
  | fail
deriving DecidableEq

/-- The row `stmt.run(pixelId, ip, userAgent, botCheck.isBot ? 1 : 0,
botCheck.reason || null)` inserts into `opens` (server.js lines 240-244),
given the AUTOINCREMENT counter of the store.  `ua` models the
`user-agent` header, defaulted to the empty string as in the source, and
`ip` models `x-forwarded-for || req.socket.remoteAddress`. -/
def recordedEvent (s : Store) (pixelId : String) (ua ip : Option String)
    (now : String) : OpenEvent :=
  { id := s.nextOpenId
    pixel_id := pixelId
    opened_at := now
    ip_address := ip
    user_agent := ua.getD ""
    is_bot := (isBot (ua.getD "") ip).isBot
    bot_reason := (isBot (ua.getD "") ip).reason }

/-- The `GET /v1/:pixelId.gif` handler of server.js lines 228-258.

The pixel is looked up with `SELECT * FROM pixels WHERE id = ?` (`.get`
returns the first matching row).  If present, the request is classified and
one row is inserted into `opens`; the handler body has no try/catch, so a
throwing INSERT (`write = .fail`) escapes the handler and Express answers
with its default 500 error page instead of the image.  `now` models the
CURRENT_TIMESTAMP the inserted row receives. -/
def handlePixelGif (s : Store) (pixelId : String) (ua ip : Option String)
    (now : String) (write : WriteOutcome) : Store × PixelFetchResult :=
  match s.pixels.find? (fun p => p.id == pixelId) with
  | none => (s, .gif gifResponse)
  | some _ =>
    match write with
    | .fail => (s, .serverError)
    | .ok =>
      ({ s with
          opens := s.opens ++ [recordedEvent s pixelId ua ip now],
          nextOpenId := s.nextOpenId + 1 },
       .gif gifResponse)

/-- Result of `POST /api/pixels`: either the 400 body or the JSON success
payload of server.js lines 220-224. -/
inductive CreateResult where
  | badRequest (error : String)
  | created (pixelId pixelUrl pixelHtml : String)
deriving DecidableEq

/-- The `POST /api/pixels` handler of server.js lines 202-225.  The two
required fields are tested with JavaScript truthiness (`!emailId ||
!recipient`), so a missing field and an empty string both fail; `subject`
defaults to the empty string.  `freshId` models the `nanoid(32)` value,
`now` the CURRENT_TIMESTAMP of the new row, `baseUrl` the configured
`TRACKER_BASE_URL`. -/
def createPixel (s : Store) (emailId recipient subject : Option String)
    (freshId now baseUrl : String) : Store × CreateResult :=
  if !jsTruthyStr emailId || !jsTruthyStr recipient then
    (s, .badRequest "emailId and recipient are required")
  else
    let px : Pixel :=
      { id := freshId
        email_id := emailId.getD ""
        recipient := recipient.getD ""
        subject := subject.getD ""
        created_at := now }
    let url := baseUrl ++ "/v1/" ++ freshId ++ ".gif"
    ({ s with pixels := s.pixels ++ [px] },
     .created freshId url
       ("<div style=\"display:none;border:0;width:0;height:0;overflow:hidden\"><img src=\""
         ++ url
         ++ "\" alt=\" \" width=\"1\" height=\"0\" style=\"display:none;border:0;width:0;height:0;overflow:hidden\"></div>"))

/-- Referential integrity of the event log: every open event points at a
registered pixel. -/
def refIntegrity (s : Store) : Prop :=
  ∀ o ∈ s.opens, ∃ p ∈ s.pixels, p.id = o.pixel_id

instance (s : Store) : Decidable (refIntegrity s) := by
  unfold refIntegrity
  infer_instance

/-- Rows of `opens` belonging to one pixel, in table (insertion) order:
`WHERE pixel_id = ?`. -/
def opensFor (s : Store) (pid : String) : List OpenEvent :=
  s.opens.filter (fun o => o.pixel_id == pid)

/-- The bot filter appended to several queries: `AND is_bot = 0` unless
`includeBots=true` (server.js lines 266, 311, 358-360). -/
def botFilterKeep (includeBots : Bool) (o : OpenEvent) : Bool :=
  includeBots || !o.is_bot

/-- Open events of one pixel surviving the bot filter. -/
def filteredOpens (s : Store) (includeBots : Bool) (pid : String) : List OpenEvent :=
  (opensFor s pid).filter (botFilterKeep includeBots)

/-- Least element of a list of strings under lexicographic order, the value
a `SELECT ... ORDER BY x ASC LIMIT 1` scalar subquery produces (`none` when
the subquery is empty, i.e. SQL NULL). -/
def minStr : List String → Option String
  | [] => none
  | x :: xs =>
    match minStr xs with
    | none => some x
    | some m => some (if strLe x m then x else m)

/-- Greatest element, for `ORDER BY x DESC LIMIT 1`. -/
def maxStr : List String → Option String
  | [] => none
  | x :: xs =>
    match maxStr xs with
    | none => some x
    | some m => some (if strLe m x then x else m)

/-- One element of the `recipients` array of `GET /api/status/:emailId`
(server.js lines 280-289). -/
structure RecipientStatus where
  recipient : String
  pixelId : String
  sentAt : String
  opened : Bool
  openCount : Nat
  botOpenCount : Nat
  firstOpened : Option String
  lastOpened : Option String
deriving DecidableEq

/-- The row the status query computes for one pixel (the four correlated
subqueries of server.js lines 268-276 plus the JSON mapping). -/
def statusEntry (s : Store) (includeBots : Bool) (p : Pixel) : RecipientStatus :=
  let f := filteredOpens s includeBots p.id
  { recipient := p.recipient
    pixelId := p.id
    sentAt := p.created_at
    opened := decide (0 < f.length)
    openCount := f.length
    botOpenCount := ((opensFor s p.id).filter (fun o => o.is_bot)).length
    firstOpened := minStr (f.map (fun o => o.opened_at))
    lastOpened := maxStr (f.map (fun o => o.opened_at)) }

/-- The `GET /api/status/:emailId` view (server.js lines 261-291): one
entry per pixel row whose `email_id` matches. -/
def statusByEmail (s : Store) (emailId : String) (includeBots : Bool) :
    List RecipientStatus :=
  (s.pixels.filter (fun p => p.email_id == emailId)).map (statusEntry s includeBots)

/-- Projection selected by `GET /api/opens/:pixelId` (server.js lines
297-302): `SELECT opened_at, ip_address, user_agent`. -/
structure OpenRow where
  opened_at : String
  ip_address : Option String
  user_agent : String
deriving DecidableEq

/-- Row projection of one open event. -/
def toOpenRow (o : OpenEvent) : OpenRow :=
  { opened_at := o.opened_at, ip_address := o.ip_address, user_agent := o.user_agent }

/-- Descending sortedness by a string key: each element is followed only by
elements with a key no larger. -/
def sortedDescBy (key : α → String) (l : List α) : Prop :=
  List.Pairwise (fun a b => strLe (key b) (key a) = true) l

instance (key : α → String) (l : List α) : Decidable (sortedDescBy key l) := by
  unfold sortedDescBy
  infer_instance

/-- Semantics of the history query of `GET /api/opens/:pixelId`:
`WHERE pixel_id = ? ORDER BY opened_at DESC` with no further sort key, so
SQLite may emit the matching rows in any order that is sorted by
`opened_at` descending.  `res` is a possible response exactly when it is
the projection of such an ordering. -/
def opensHistoryResult (s : Store) (pid : String) (res : List OpenRow) : Prop :=
  ∃ l : List OpenEvent,
    l.Perm (opensFor s pid) ∧ sortedDescBy (fun o => o.opened_at) l ∧
    res = l.map toOpenRow

/-- Insertion step of the deterministic descending sort used to model the
ordered queries whose stated properties do not depend on tie order. -/
def insertDescBy (key : α → String) (a : α) : List α → List α
  | [] => [a]
  | b :: bs => if strLe (key b) (key a) then a :: b :: bs else b :: insertDescBy key a bs

/-- Insertion sort, descending by `key`. -/
def sortDescBy (key : α → String) : List α → List α
  | [] => []
  | a :: as => insertDescBy key a (sortDescBy key as)

/-- JavaScript `parseInt` digit run: longest prefix of digits of the given
base, `none` when it is empty (NaN). -/
def parseDigitRun (dval : Char → Option Nat) (base : Nat) (cs : List Char) : Option Nat :=
  let ds := cs.takeWhile (fun c => (dval c).isSome)
  if ds.isEmpty then none
  else some (ds.foldl (fun a c => a * base + (dval c).getD 0) 0)

/-- Decimal digit value. -/
def decDigit (c : Char) : Option Nat :=
  if c.isDigit then some (c.toNat - 48) else none

/-- Hexadecimal digit value. -/
def hexDigit (c : Char) : Option Nat :=
  if c.isDigit then some (c.toNat - 48)
  else if 97 ≤ c.toNat && c.toNat ≤ 102 then some (c.toNat - 87)
  else if 65 ≤ c.toNat && c.toNat ≤ 70 then some (c.toNat - 55)
  else none

/-- Unsigned part of JavaScript `parseInt`: a `0x`/`0X` prefix switches to
hexadecimal, otherwise the longest decimal digit prefix is taken. -/
def jsParseUnsigned : List Char → Option Nat
  | '0' :: 'x' :: rest => parseDigitRun hexDigit 16 rest
  | '0' :: 'X' :: rest => parseDigitRun hexDigit 16 rest
  | cs => parseDigitRun decDigit 10 cs

/-- JavaScript `parseInt(string)` with no radix argument: leading
whitespace is skipped, an optional sign is read, and the longest valid
digit prefix is converted; `none` models NaN. -/
def jsParseInt (str : String) : Option Int :=
  match str.toList.dropWhile (fun c => c.isWhitespace) with
  | '-' :: rest => (jsParseUnsigned rest).map (fun n => -(n : Int))
  | '+' :: rest => (jsParseUnsigned rest).map (fun n => (n : Int))
  | cs => (jsParseUnsigned cs).map (fun n => (n : Int))

/-- Effective limit of the dashboard and activity endpoints:
`parseInt(req.query.limit) || 50` (server.js lines 309 and 334).  An absent
parameter, NaN and 0 all fall back to 50. -/
def effLimit (limitQ : Option String) : Int :=
  match limitQ with
  | none => 50
  | some s =>
    match jsParseInt s with
    | none => 50
    | some v => if v = 0 then 50 else v

/-- SQLite `LIMIT n`: a negative bound means no limit, otherwise the first
`n` rows are kept. -/
def applyLimit (lim : Int) (l : List α) : List α :=
  if lim < 0 then l else l.take lim.toNat

/-- Row shape of the activity feed join of server.js lines 338-354. -/
structure ActivityRow where
  open_id : Nat
  opened_at : String
  ip_address : Option String
  user_agent : String
  is_bot : Bool
  bot_reason : Option String
  pixel_id : String
  email_id : String
  recipient : String
  subject : String
  sent_at : String
deriving DecidableEq

/-- The `JOIN pixels p ON o.pixel_id = p.id` of the activity query: each
open event paired with its (unique, primary-key) pixel; dangling events
are dropped by the inner join. -/
def joinOpens (s : Store) : List ActivityRow :=
  s.opens.filterMap (fun o =>
    (s.pixels.find? (fun p => p.id == o.pixel_id)).map (fun p =>
      { open_id := o.id, opened_at := o.opened_at, ip_address := o.ip_address,
        user_agent := o.user_agent, is_bot := o.is_bot, bot_reason := o.bot_reason,
        pixel_id := p.id, email_id := p.email_id, recipient := p.recipient,
        subject := p.subject, sent_at := p.created_at }))

/-- Response body of `GET /api/activity`. -/
structure ActivityResponse where
  opens : List ActivityRow
  newCount : Nat
deriving DecidableEq

/-- The `GET /api/activity` endpoint (server.js lines 333-387): the joined
events, bot-filtered unless `includeBots`, restricted to
`opened_at > since` when `since` is truthy, ordered most recent first and
capped at the effective limit; `newCount` is the separate unjoined,
unlimited `SELECT COUNT(*) FROM opens WHERE opened_at > ?` with the same
bot condition, and stays 0 when `since` is not supplied. -/
def activity (s : Store) (limitQ sinceQ : Option String) (includeBots : Bool) :
    ActivityResponse :=
  let rows := joinOpens s
  let rows := if includeBots then rows else rows.filter (fun r => !r.is_bot)
  let rows :=
    if jsTruthyStr sinceQ then rows.filter (fun r => strLt (sinceQ.getD "") r.opened_at)
    else rows
  let outRows := applyLimit (effLimit limitQ) (sortDescBy (fun r => r.opened_at) rows)
  let newCount :=
    if jsTruthyStr sinceQ then
      s.opens.countP (fun o =>
        strLt (sinceQ.getD "") o.opened_at && botFilterKeep includeBots o)
    else 0
  { opens := outRows, newCount := newCount }

/-- Row shape of `GET /api/dashboard` (server.js lines 313-327). -/
structure EmailRollup where
  email_id : String
  subject : String
  recipients : String
  sent_at : String
  total_opens : Nat
  bot_opens : Nat
  recipients_opened : Nat
  total_recipients : Nat
deriving DecidableEq

/-- SQLite `GROUP_CONCAT` with the default comma separator. -/
def joinComma : List String → String
  | [] => ""
  | [x] => x
  | x :: xs => x ++ "," ++ joinComma xs

/-- Pixel rows of one email group. -/
def pixelsOfEmail (s : Store) (eid : String) : List Pixel :=
  s.pixels.filter (fun p => p.email_id == eid)

/-- The aggregate row the dashboard query computes for one `email_id`
group: `GROUP_CONCAT(recipient)`, `MIN(created_at)`, the two summed
per-pixel open counts, and the two distinct-recipient counts (the bare
`p.subject` column is taken from the first row of the group, one of the
choices SQLite may make for an unaggregated column). -/
def emailRollup (s : Store) (includeBots : Bool) (eid : String) : EmailRollup :=
  let ps := pixelsOfEmail s eid
  { email_id := eid
    subject := (ps.head?.map Pixel.subject).getD ""
    recipients := joinComma (ps.map Pixel.recipient)
    sent_at := (minStr (ps.map Pixel.created_at)).getD ""
    total_opens := (ps.map (fun p => (filteredOpens s includeBots p.id).length)).sum
    bot_opens := (ps.map (fun p => ((opensFor s p.id).filter (fun o => o.is_bot)).length)).sum
    recipients_opened :=
      ((ps.filter (fun p => decide (0 < (filteredOpens s includeBots p.id).length))).map
        Pixel.recipient).dedup.length
    total_recipients := (ps.map Pixel.recipient).dedup.length }

/-- The distinct `email_id` values of the pixel table, the groups of
`GROUP BY p.email_id`. -/
def distinctEmailIds (s : Store) : List String :=
  (s.pixels.map Pixel.email_id).dedup

/-- The `GET /api/dashboard` endpoint (server.js lines 308-330): one
rollup per distinct `email_id`, ordered by `sent_at` descending, capped at
the effective limit. -/
def dashboard (s : Store) (limitQ : Option String) (includeBots : Bool) :
    List EmailRollup :=
  applyLimit (effLimit limitQ)
    (sortDescBy EmailRollup.sent_at ((distinctEmailIds s).map (emailRollup s includeBots)))

/-- One pixel fetch of the C6 iteration: the request headers and the
timestamp the inserted row receives. -/
structure FetchReq where
  ua : Option String
  ip : Option String
  now : String

/-- Repeated successful fetches of one pixel id. -/
def fetchSeq (s : Store) (pid : String) : List FetchReq → Store
  | [] => s
  | r :: rs => fetchSeq (handlePixelGif s pid r.ua r.ip r.now .ok).1 pid rs

/-- Two ordinary mail-client fetches used by the C6 witness. -/
def fetchReqsTwo : List FetchReq :=
  [ { ua := some "Mozilla/5.0", ip := some "203.0.113.1", now := "2024-01-02 10:00:00" },
    { ua := some "Mozilla/5.0", ip := some "203.0.113.1", now := "2024-01-02 11:00:00" } ]

/-- A sample registered pixel used by concrete test stores. -/
def demoPixel : Pixel :=
  { id := "px1", email_id := "e1", recipient := "alice@example.com",
    subject := "hello", created_at := "2024-01-01 00:00:00" }

/-- A store holding one pixel and no open events. -/
def onePixelStore : Store :=
  { pixels := [demoPixel], opens := [], nextOpenId := 1 }

/-- Pixel of the polling scenario of claim C3. -/
def feedPixel : Pixel :=
  { id := "pa", email_id := "em", recipient := "ray@example.com",
    subject := "news", created_at := "2024-01-01 09:00:00" }

/-- A human open of `pa` at the given time with the given row id. -/
def feedOpen (i : Nat) (ts : String) : OpenEvent :=
  { id := i, pixel_id := "pa", opened_at := ts,
    ip_address := some "198.51.100.7", user_agent := "Thunderbird",
    is_bot := false, bot_reason := none }

/-- Store with three opens at t0 < t1 < t2 for the polling scenario. -/
def feedStore : Store :=
  { pixels := [feedPixel],
    opens := [feedOpen 1 "2024-01-01 10:00:00", feedOpen 2 "2024-01-01 11:00:00",
              feedOpen 3 "2024-01-01 12:00:00"],
    nextOpenId := 4 }

/-- Pixel of the googlebot scenario of claim C5. -/
def botPixel : Pixel :=
  { id := "pb", email_id := "em2", recipient := "carol@example.com",
    subject := "", created_at := "2024-02-01 00:00:00" }

/-- Open event as the recorder stores it for a googlebot user agent. -/
def googlebotOpen : OpenEvent :=
  { id := 1, pixel_id := "pb", opened_at := "2024-02-01 01:00:00",
    ip_address := some "203.0.113.5",
    user_agent := "Googlebot/2.1 (+http://www.google.com/bot.html)",
    is_bot := true, bot_reason := some "user-agent: googlebot" }

/-- A human open of the same pixel. -/
def humanOpen : OpenEvent :=
  { id := 2, pixel_id := "pb", opened_at := "2024-02-01 02:00:00",
    ip_address := some "203.0.113.9", user_agent := "Thunderbird",
    is_bot := false, bot_reason := none }

/-- Store of the googlebot scenario: one bot open and one human open. -/
def statusStore : Store :=
  { pixels := [botPixel], opens := [googlebotOpen, humanOpen], nextOpenId := 3 }

/-- Pixel of the tie-break counterexample of claim C8. -/
def tiePixel : Pixel :=
  { id := "pt", email_id := "em3", recipient := "dave@example.com",
    subject := "", created_at := "2024-03-01 00:00:00" }

/-- First of two opens sharing one `opened_at` value. -/
def tieOpenA : OpenEvent :=
  { id := 1, pixel_id := "pt", opened_at := "2024-03-01 10:00:00",
    ip_address := some "198.51.100.1", user_agent := "AgentA",
    is_bot := false, bot_reason := none }

/-- Second open with the identical timestamp but a later row id. -/
def tieOpenB : OpenEvent :=
  { id := 2, pixel_id := "pt", opened_at := "2024-03-01 10:00:00",
    ip_address := some "198.51.100.2", user_agent := "AgentB",
    is_bot := false, bot_reason := none }

/-- Store whose pixel has two opens with identical timestamps. -/
def tieStore : Store :=
  { pixels := [tiePixel], opens := [tieOpenA, tieOpenB], nextOpenId := 3 }

/-- Pixel for the tie-free history witness. -/
def histPixel : Pixel :=
  { id := "ph", email_id := "em4", recipient := "erin@example.com",
    subject := "", created_at := "2024-03-02 00:00:00" }

/-- Earlier open of `ph`. -/
def histOpen1 : OpenEvent :=
  { id := 1, pixel_id := "ph", opened_at := "2024-03-02 10:00:00",
    ip_address := none, user_agent := "AgentC", is_bot := false, bot_reason := none }

/-- Later open of `ph`. -/
def histOpen2 : OpenEvent :=
  { id := 2, pixel_id := "ph", opened_at := "2024-03-02 11:00:00",
    ip_address := none, user_agent := "AgentD", is_bot := false, bot_reason := none }

/-- Store with two distinct-time opens of one pixel. -/
def histStore : Store :=
  { pixels := [histPixel], opens := [histOpen1, histOpen2], nextOpenId := 3 }

/-- Three pixels of one email for the dashboard rollup scenario of C9. -/
def dashPixelA : Pixel :=
  { id := "da", email_id := "dm", recipient := "r1@example.com",
    subject := "promo", created_at := "2024-04-01 00:00:00" }

/-- Second recipient pixel of the dashboard scenario. -/
def dashPixelB : Pixel :=
  { id := "db", email_id := "dm", recipient := "r2@example.com",
    subject := "promo", created_at := "2024-04-01 00:00:00" }

/-- Third recipient pixel of the dashboard scenario; never opened. -/
def dashPixelC : Pixel :=
  { id := "dc", email_id := "dm", recipient := "r3@example.com",
    subject := "promo", created_at := "2024-04-01 00:00:00" }

/-- The one human open of the dashboard scenario, on pixel `da`. -/
def dashOpenHuman : OpenEvent :=
  { id := 1, pixel_id := "da", opened_at := "2024-04-01 01:00:00",
    ip_address := some "198.51.100.3", user_agent := "Thunderbird",
    is_bot := false, bot_reason := none }

/-- The one bot-classified open, on pixel `db`. -/
def dashOpenBot : OpenEvent :=
  { id := 2, pixel_id := "db", opened_at := "2024-04-01 02:00:00",
    ip_address := some "66.249.80.1", user_agent := "GoogleImageProxy",
    is_bot := true, bot_reason := some "user-agent: googleimageproxy" }

/-- Store of the dashboard scenario: three recipients, two opens, one of
them bot-classified. -/
def dashStore : Store :=
  { pixels := [dashPixelA, dashPixelB, dashPixelC],
    opens := [dashOpenHuman, dashOpenBot], nextOpenId := 3 }

theorem findBotPattern_eq_find (ua : String) (l : List String) :
    findBotPattern ua l = l.find? (fun pat => containsSub ua pat) := by
  induction l with
  | nil => rfl
  | cons pat rest ih =>
    simp only [findBotPattern, List.find?]
    by_cases h : containsSub ua pat = true
    · simp [h]
    · simp only [Bool.not_eq_true] at h
      simp [h, ih]

theorem findIpRange_eq_find (ip : String) (l : List String) :
    findIpRange ip l = l.find? (fun pre => startsWithStr ip pre) := by
  induction l with
  | nil => rfl
  | cons pre rest ih =>
    simp only [findIpRange, List.find?]
    by_cases h : startsWithStr ip pre = true
    · simp [h]
    · simp only [Bool.not_eq_true] at h
      simp [h, ih]

/-- C4: the classifier is a total function and agrees, on every input, with
the reference algorithm of the spec: first matching bot substring of the
lowercased user agent (in list order) gives a bot with reason
`user-agent: <substring>`; otherwise a present source IP matching a listed
prefix gives a bot with reason `ip-range: <matched-prefix>*`; otherwise the
result is not a bot and carries no reason. -/
theorem isBot_eq_classifySpec (userAgent : String) (ip : Option String) :
    isBot userAgent ip = classifySpec userAgent ip := by
  simp only [isBot, classifySpec, findBotPattern_eq_find, findIpRange_eq_find]
  generalize BOT_USER_AGENTS = L
  generalize GOOGLE_IP_PREFIXES = P
  cases hf : L.find? (fun pat => containsSub (strToLower userAgent) pat) with
  | some pat => rfl
  | none =>
    cases ip with
    | none => rfl
    | some ipStr =>
      simp only [jsTruthyStr, Option.getD]
      by_cases h : ipStr = ""
      · simp [h]
      · have hb : (ipStr == "") = false := by
          simp [h]
        simp [hb, h]

/-- C1: a fetch with an unknown pixel id answers with exactly the image
response (the same bytes and headers every successful fetch of a known id
receives) and leaves the whole store, in particular the open-event log,
unchanged; moreover both the pixel route and pixel creation preserve the
referential-integrity invariant that every stored open event references a
registered pixel, which holds of the empty store. -/
theorem unknown_pixel_fetch_safe (s : Store) (pid : String) (ua ip : Option String)
    (now : String) (w : WriteOutcome) :
    (s.pixels.find? (fun p => p.id == pid) = none →
      handlePixelGif s pid ua ip now w = (s, .gif gifResponse)) ∧
    ((handlePixelGif s pid ua ip now .ok).2 = .gif gifResponse) ∧
    (refIntegrity s → refIntegrity (handlePixelGif s pid ua ip now w).1) ∧
    (refIntegrity s → ∀ e r sub fid nw base,
      refIntegrity (createPixel s e r sub fid nw base).1) ∧
    refIntegrity emptyStore := by
  refine ⟨?_, ?_, ?_, ?_, ?_⟩
  · intro h
    simp [handlePixelGif, h]
  · cases hf : s.pixels.find? (fun p => p.id == pid) with
    | none => simp [handlePixelGif, hf]
    | some p => simp [handlePixelGif, hf]
  · intro hri
    cases hf : s.pixels.find? (fun p => p.id == pid) with
    | none => simpa [handlePixelGif, hf] using hri
    | some p =>
      cases w with
      | fail => simpa [handlePixelGif, hf] using hri
      | ok =>
        simp only [handlePixelGif, hf]
        intro o ho
        simp only [List.mem_append, List.mem_singleton] at ho
        cases ho with
        | inl hmem => exact hri o hmem
        | inr heq =>
          refine ⟨p, List.mem_of_find?_eq_some hf, ?_⟩
          have hp := List.find?_some hf
          have hpe : p.id = pid := by simpa using hp
          simp [heq, hpe, recordedEvent]
  · intro hri e r sub fid nw base
    unfold createPixel
    by_cases he : (!jsTruthyStr e || !jsTruthyStr r) = true
    · rw [if_pos he]
      exact hri
    · rw [if_neg he]
      intro o ho
      obtain ⟨p, hp, hpid⟩ := hri o ho
      exact ⟨p, List.mem_append_left _ hp, hpid⟩
  · decide

/-- C1 witness: fetching the unknown id `missing` against a store holding
only `px1` returns the image response, changes nothing, and keeps
referential integrity. -/
theorem unknown_pixel_fetch_safe_witness :
    handlePixelGif onePixelStore "missing" (some "Mozilla/5.0") (some "203.0.113.9")
        "2024-01-02 00:00:00" WriteOutcome.ok = (onePixelStore, .gif gifResponse) ∧
    refIntegrity (handlePixelGif onePixelStore "missing" (some "Mozilla/5.0")
        (some "203.0.113.9") "2024-01-02 00:00:00" WriteOutcome.ok).1 :=
  ⟨(unknown_pixel_fetch_safe onePixelStore "missing" (some "Mozilla/5.0")
      (some "203.0.113.9") "2024-01-02 00:00:00" WriteOutcome.ok).1 (by decide),
   (unknown_pixel_fetch_safe onePixelStore "missing" (some "Mozilla/5.0")
      (some "203.0.113.9") "2024-01-02 00:00:00" WriteOutcome.ok).2.2.1 (by decide)⟩

/-- C2 (code bug): the pixel route has no try/catch, so when the INSERT
into `opens` throws on a fetch of an existing pixel, the exception escapes
the handler and the mail client receives the Express 500 error page — not
the transparent image the spec promises.  Evaluated here at a concrete
failing input. -/
theorem pixel_write_failure_no_image :
    handlePixelGif onePixelStore "px1" (some "Mozilla/5.0") (some "203.0.113.9")
        "2024-01-02 00:00:00" WriteOutcome.fail = (onePixelStore, .serverError) ∧
    (handlePixelGif onePixelStore "px1" (some "Mozilla/5.0") (some "203.0.113.9")
        "2024-01-02 00:00:00" WriteOutcome.ok).2 = .gif gifResponse := by
  exact ⟨by decide, by decide⟩

/-- C7: when `emailId` or `recipient` is missing or empty, pixel creation
answers with the 400 `InvalidArgument` body and the store is returned
unchanged — no pixel row and no open event is written. -/
theorem createPixel_missing_fields (s : Store) (emailId recipient subject : Option String)
    (freshId now baseUrl : String)
    (h : emailId = none ∨ emailId = some "" ∨ recipient = none ∨ recipient = some "") :
    createPixel s emailId recipient subject freshId now baseUrl
      = (s, .badRequest "emailId and recipient are required") := by
  rcases h with h | h | h | h <;> subst h <;> simp [createPixel, jsTruthyStr]

/-- C7 witness: creating a pixel with no `emailId` fails with the 400 body
and leaves the empty store empty. -/
theorem createPixel_missing_fields_witness :
    createPixel emptyStore none (some "bob@example.com") none "fid123"
        "2024-01-01 00:00:00" "http://localhost:3001"
      = (emptyStore, .badRequest "emailId and recipient are required") :=
  createPixel_missing_fields emptyStore none (some "bob@example.com") none "fid123"
    "2024-01-01 00:00:00" "http://localhost:3001" (Or.inl rfl)

theorem bnot_true_iff (b : Bool) : (!b) = true ↔ b = false := by
  cases b <;> simp

theorem bool_eq_false (b : Bool) (h : ¬(b = true)) : b = false := by
  cases b with
  | false => rfl
  | true => exact absurd rfl h

theorem charListLt_irrefl (as : List Char) : charListLt as as = false := by
  induction as with
  | nil => rfl
  | cons a as ih =>
    rw [charListLt, if_neg (lt_irrefl a), if_neg (lt_irrefl a)]
    exact ih

theorem charListLt_trans (as bs cs : List Char) (h1 : charListLt as bs = true)
    (h2 : charListLt bs cs = true) : charListLt as cs = true := by
  induction as generalizing bs cs with
  | nil =>
    cases bs with
    | nil => cases h1
    | cons b bs2 =>
      cases cs with
      | nil => cases h2
      | cons c cs2 => rfl
  | cons a as ih =>
    cases bs with
    | nil => cases h1
    | cons b bs2 =>
      cases cs with
      | nil => cases h2
      | cons c cs2 =>
        rw [charListLt] at h1 h2 ⊢
        by_cases hab : a < b
        · by_cases hbc : b < c
          · rw [if_pos (lt_trans hab hbc)]
          · rw [if_neg hbc] at h2
            by_cases hcb : c < b
            · rw [if_pos hcb] at h2
              cases h2
            · have hbceq : b = c := le_antisymm (le_of_not_lt hcb) (le_of_not_lt hbc)
              subst hbceq
              rw [if_pos hab]
        · rw [if_neg hab] at h1
          by_cases hba : b < a
          · rw [if_pos hba] at h1
            cases h1
          · rw [if_neg hba] at h1
            have habeq : a = b := le_antisymm (le_of_not_lt hba) (le_of_not_lt hab)
            subst habeq
            by_cases hac : a < c
            · rw [if_pos hac]
            · rw [if_neg hac] at h2 ⊢
              by_cases hca : c < a
              · rw [if_pos hca] at h2
                cases h2
              · rw [if_neg hca] at h2 ⊢
                exact ih bs2 cs2 h1 h2

theorem charListLt_asymm (as bs : List Char) (h : charListLt as bs = true) :
    charListLt bs as = false := by
  induction as generalizing bs with
  | nil =>
    cases bs with
    | nil => cases h
    | cons b bs2 => rfl
  | cons a as ih =>
    cases bs with
    | nil => cases h
    | cons b bs2 =>
      rw [charListLt] at h ⊢
      by_cases hab : a < b
      · rw [if_neg (lt_asymm hab), if_pos hab]
      · rw [if_neg hab] at h
        by_cases hba : b < a
        · rw [if_pos hba] at h
          cases h
        · rw [if_neg hba] at h
          rw [if_neg hba, if_neg hab]
          exact ih bs2 h

theorem charListLt_eq_of_not (as bs : List Char) (h1 : charListLt as bs = false)
    (h2 : charListLt bs as = false) : as = bs := by
  induction as generalizing bs with
  | nil =>
    cases bs with
    | nil => rfl
    | cons b bs2 => cases h1
  | cons a as ih =>
    cases bs with
    | nil => cases h2
    | cons b bs2 =>
      rw [charListLt] at h1 h2
      by_cases hab : a < b
      · rw [if_pos hab] at h1
        cases h1
      · by_cases hba : b < a
        · rw [if_pos hba] at h2
          cases h2
        · rw [if_neg hab, if_neg hba] at h1
          rw [if_neg hba, if_neg hab] at h2
          have habeq : a = b := le_antisymm (le_of_not_lt hba) (le_of_not_lt hab)
          rw [habeq, ih bs2 h1 h2]

theorem str_eq_of_not_lt (a b : String) (h1 : strLt a b = false)
    (h2 : strLt b a = false) : a = b := by
  have h := charListLt_eq_of_not a.toList b.toList h1 h2
  cases a with
  | mk da =>
    cases b with
    | mk db => exact congrArg String.mk h

theorem strLe_refl (a : String) : strLe a a = true := by
  rw [strLe, bnot_true_iff, strLt, charListLt_irrefl]

theorem strLe_of_not_le (a b : String) (h : strLe a b = false) : strLe b a = true := by
  rw [strLe] at h ⊢
  rw [bnot_true_iff]
  have h2 : strLt b a = true := by
    cases hx : strLt b a with
    | false =>
      rw [hx] at h
      cases h
    | true => rfl
  exact charListLt_asymm _ _ h2

theorem strLe_trans (a b c : String) (h1 : strLe a b = true) (h2 : strLe b c = true) :
    strLe a c = true := by
  rw [strLe, bnot_true_iff] at h1 h2 ⊢
  by_cases hca : strLt c a = true
  · by_cases hbc : strLt b c = true
    · have h3 : strLt b a = true := charListLt_trans _ _ _ hbc hca
      rw [h3] at h1
      cases h1
    · have hb : b = c := str_eq_of_not_lt b c (bool_eq_false _ hbc) h2
      subst hb
      rw [hca] at h1
      cases h1
  · exact bool_eq_false _ hca

theorem strLt_of_le_of_ne (a b : String) (h : strLe a b = true) (hne : a ≠ b) :
    strLt a b = true := by
  rw [strLe, bnot_true_iff] at h
  by_cases hab : strLt a b = true
  · exact hab
  · exact absurd (str_eq_of_not_lt a b (bool_eq_false _ hab) h) hne

theorem strLt_asymm (a b : String) (h : strLt a b = true) : strLt b a = false :=
  charListLt_asymm _ _ h

theorem insertDescBy_perm (key : α → String) (a : α) (l : List α) :
    (insertDescBy key a l).Perm (a :: l) := by
  induction l with
  | nil => exact List.Perm.refl _
  | cons b bs ih =>
    by_cases h : strLe (key b) (key a) = true
    · rw [insertDescBy, if_pos h]
    · rw [insertDescBy, if_neg h]
      exact List.Perm.trans (List.Perm.cons b ih) (List.Perm.swap a b bs)

theorem sortedDescBy_insertDescBy (key : α → String) (a : α) (l : List α)
    (h : sortedDescBy key l) : sortedDescBy key (insertDescBy key a l) := by
  induction l with
  | nil =>
    rw [insertDescBy, sortedDescBy]
    exact List.pairwise_singleton _ _
  | cons b bs ih =>
    rw [sortedDescBy, List.pairwise_cons] at h
    obtain ⟨hb, hbs⟩ := h
    by_cases hc : strLe (key b) (key a) = true
    · rw [insertDescBy, if_pos hc, sortedDescBy, List.pairwise_cons]
      refine ⟨?_, List.pairwise_cons.mpr ⟨hb, hbs⟩⟩
      intro y hy
      rcases List.mem_cons.mp hy with rfl | hy2
      · exact hc
      · exact strLe_trans _ _ _ (hb y hy2) hc
    · rw [insertDescBy, if_neg hc, sortedDescBy, List.pairwise_cons]
      refine ⟨?_, ih hbs⟩
      intro y hy
      rcases List.mem_cons.mp ((insertDescBy_perm key a bs).mem_iff.mp hy) with rfl | hy2
      · exact strLe_of_not_le _ _ (bool_eq_false _ hc)
      · exact hb y hy2

theorem sortDescBy_perm (key : α → String) (l : List α) :
    (sortDescBy key l).Perm l := by
  induction l with
  | nil => exact List.Perm.refl _
  | cons a as ih =>
    exact List.Perm.trans (insertDescBy_perm key a (sortDescBy key as)) (List.Perm.cons a ih)

theorem sortDescBy_sorted (key : α → String) (l : List α) :
    sortedDescBy key (sortDescBy key l) := by
  induction l with
  | nil => exact List.Pairwise.nil
  | cons a as ih => exact sortedDescBy_insertDescBy key a _ ih

theorem minStr_eq_none (l : List String) : minStr l = none ↔ l = [] := by
  cases l with
  | nil => simp [minStr]
  | cons x xs =>
    rw [minStr]
    cases h : minStr xs <;> simp

theorem minStr_spec (l : List String) (t : String) (h : minStr l = some t) :
    t ∈ l ∧ ∀ u ∈ l, strLe t u = true := by
  induction l generalizing t with
  | nil => cases h
  | cons x xs ih =>
    rw [minStr] at h
    cases hm : minStr xs with
    | none =>
      rw [hm] at h
      injection h with h2
      have hxs : xs = [] := (minStr_eq_none xs).mp hm
      subst hxs
      subst h2
      refine ⟨List.mem_singleton_self _, ?_⟩
      intro u hu
      rw [List.mem_singleton] at hu
      subst hu
      exact strLe_refl _
    | some m =>
      rw [hm] at h
      injection h with h2
      obtain ⟨hmem, hle⟩ := ih m hm
      by_cases hc : strLe x m = true
      · rw [if_pos hc] at h2
        subst h2
        refine ⟨List.mem_cons_self x xs, ?_⟩
        intro u hu
        rcases List.mem_cons.mp hu with rfl | hu2
        · exact strLe_refl _
        · exact strLe_trans _ _ _ hc (hle u hu2)
      · rw [if_neg hc] at h2
        subst h2
        refine ⟨List.mem_cons_of_mem x hmem, ?_⟩
        intro u hu
        rcases List.mem_cons.mp hu with rfl | hu2
        · exact strLe_of_not_le _ _ (bool_eq_false _ hc)
        · exact hle u hu2

theorem maxStr_eq_none (l : List String) : maxStr l = none ↔ l = [] := by
  cases l with
  | nil => simp [maxStr]
  | cons x xs =>
    rw [maxStr]
    cases h : maxStr xs <;> simp

theorem maxStr_spec (l : List String) (t : String) (h : maxStr l = some t) :
    t ∈ l ∧ ∀ u ∈ l, strLe u t = true := by
  induction l generalizing t with
  | nil => cases h
  | cons x xs ih =>
    rw [maxStr] at h
    cases hm : maxStr xs with
    | none =>
      rw [hm] at h
      injection h with h2
      have hxs : xs = [] := (maxStr_eq_none xs).mp hm
      subst hxs
      subst h2
      refine ⟨List.mem_singleton_self _, ?_⟩
      intro u hu
      rw [List.mem_singleton] at hu
      subst hu
      exact strLe_refl _
    | some m =>
      rw [hm] at h
      injection h with h2
      obtain ⟨hmem, hle⟩ := ih m hm
      by_cases hc : strLe m x = true
      · rw [if_pos hc] at h2
        subst h2
        refine ⟨List.mem_cons_self x xs, ?_⟩
        intro u hu
        rcases List.mem_cons.mp hu with rfl | hu2
        · exact strLe_refl _
        · exact strLe_trans _ _ _ (hle u hu2) hc
      · rw [if_neg hc] at h2
        subst h2
        refine ⟨List.mem_cons_of_mem x hmem, ?_⟩
        intro u hu
        rcases List.mem_cons.mp hu with rfl | hu2
        · exact strLe_of_not_le _ _ (bool_eq_false _ hc)
        · exact hle u hu2

theorem applyLimit_sublist (lim : Int) (l : List α) :
    (applyLimit lim l).Sublist l := by
  unfold applyLimit
  by_cases h : lim < 0
  · rw [if_pos h]
  · rw [if_neg h]
    exact List.take_sublist _ _

theorem applyLimit_length (lim : Int) (h : 0 ≤ lim) (l : List α) :
    (applyLimit lim l).length ≤ lim.toNat := by
  unfold applyLimit
  rw [if_neg (not_lt.mpr h)]
  rw [List.length_take]
  exact min_le_left _ _

theorem filteredOpens_length_countP (s : Store) (b : Bool) (pid : String) :
    (filteredOpens s b pid).length =
      s.opens.countP (fun o => decide (o.pixel_id = pid ∧ (b = true ∨ o.is_bot = false))) := by
  unfold filteredOpens opensFor
  rw [List.filter_filter, ← List.countP_eq_length_filter]
  apply List.countP_congr
  intro o _
  cases b <;> by_cases hp : o.pixel_id = pid <;> cases hib : o.is_bot <;>
    simp [botFilterKeep, hp, hib]

theorem botOpens_length_countP (s : Store) (pid : String) :
    ((opensFor s pid).filter (fun o => o.is_bot)).length =
      s.opens.countP (fun o => decide (o.pixel_id = pid ∧ o.is_bot = true)) := by
  unfold opensFor
  rw [List.filter_filter, ← List.countP_eq_length_filter]
  apply List.countP_congr
  intro o _
  by_cases hp : o.pixel_id = pid <;> cases hib : o.is_bot <;> simp [hp, hib]

/-- C3: with a supplied (truthy) `since` value, the activity feed returns
only events strictly newer than `since`, capped at the effective limit and
ordered most recent first, and `newCount` counts, over the whole event log
and ignoring the limit, the events strictly newer than `since` that pass
the bot filter. -/
theorem activity_since_spec (s : Store) (limitQ : Option String) (t : String)
    (b : Bool) (ht : t ≠ "") (hl : 0 ≤ effLimit limitQ) :
    (∀ r ∈ (activity s limitQ (some t) b).opens, strLt t r.opened_at = true) ∧
    (activity s limitQ (some t) b).opens.length ≤ (effLimit limitQ).toNat ∧
    sortedDescBy (fun r => r.opened_at) (activity s limitQ (some t) b).opens ∧
    (activity s limitQ (some t) b).newCount =
      s.opens.countP (fun o =>
        decide (strLt t o.opened_at = true ∧ (b = true ∨ o.is_bot = false))) := by
  have htr : jsTruthyStr (some t) = true := by
    simp [jsTruthyStr, ht]
  refine ⟨?_, ?_, ?_, ?_⟩
  · intro r hr
    simp only [activity, htr, if_pos] at hr
    have hr2 := (sortDescBy_perm _ _).mem_iff.mp ((applyLimit_sublist _ _).mem hr)
    have := (List.mem_filter.mp hr2).2
    simpa using this
  · simp only [activity, htr, if_pos]
    exact applyLimit_length _ hl _
  · simp only [activity, htr, if_pos]
    exact List.Pairwise.sublist (applyLimit_sublist _ _) (sortDescBy_sorted _ _)
  · simp only [activity, htr, if_pos]
    apply List.countP_congr
    intro o _
    cases b <;> cases hlt : strLt t o.opened_at <;> cases hib : o.is_bot <;>
      simp [botFilterKeep, hlt, hib]

/-- C3 witness: with events at t0 < t1 < t2, polling with since = t1
returns only the t2 event with newCount 1, and polling with since = t2
returns nothing with newCount 0. -/
theorem activity_since_spec_witness :
    ((∀ r ∈ (activity feedStore none (some "2024-01-01 11:00:00") false).opens,
        strLt "2024-01-01 11:00:00" r.opened_at = true) ∧
      (activity feedStore none (some "2024-01-01 11:00:00") false).opens.length ≤
        (effLimit none).toNat ∧
      sortedDescBy (fun r => r.opened_at)
        (activity feedStore none (some "2024-01-01 11:00:00") false).opens ∧
      (activity feedStore none (some "2024-01-01 11:00:00") false).newCount =
        feedStore.opens.countP (fun o =>
          decide (strLt "2024-01-01 11:00:00" o.opened_at = true ∧
            (false = true ∨ o.is_bot = false)))) ∧
    ((activity feedStore none (some "2024-01-01 11:00:00") false).opens.map
        (fun r => r.opened_at) = ["2024-01-01 12:00:00"]) ∧
    (activity feedStore none (some "2024-01-01 11:00:00") false).newCount = 1 ∧
    (activity feedStore none (some "2024-01-01 12:00:00") false).opens = [] ∧
    (activity feedStore none (some "2024-01-01 12:00:00") false).newCount = 0 :=
  ⟨activity_since_spec feedStore none "2024-01-01 11:00:00" false (by decide) (by decide),
   by decide, by decide, by decide, by decide⟩

/-- C5: the status view contains the entry of every pixel of the email;
the entry counts the bot-filtered opens of that pixel in `openCount`, the
bot-classified opens (independently of the flag) in `botOpenCount`, sets
`opened` exactly when `openCount` is positive, and reports as
`firstOpened`/`lastOpened` the least/greatest `opened_at` among the
filtered events, `none` exactly when no filtered event exists. -/
theorem status_by_email_spec (s : Store) (eid : String) (b : Bool) (p : Pixel)
    (hp : p ∈ s.pixels) (he : p.email_id = eid) :
    statusEntry s b p ∈ statusByEmail s eid b ∧
    (statusEntry s b p).openCount =
      s.opens.countP (fun o => decide (o.pixel_id = p.id ∧ (b = true ∨ o.is_bot = false))) ∧
    (statusEntry s b p).botOpenCount =
      s.opens.countP (fun o => decide (o.pixel_id = p.id ∧ o.is_bot = true)) ∧
    ((statusEntry s b p).opened = true ↔ 0 < (statusEntry s b p).openCount) ∧
    ((statusEntry s b p).firstOpened = none ↔ (statusEntry s b p).openCount = 0) ∧
    (∀ t, (statusEntry s b p).firstOpened = some t →
      t ∈ (filteredOpens s b p.id).map (fun o => o.opened_at) ∧
      ∀ u ∈ (filteredOpens s b p.id).map (fun o => o.opened_at), strLe t u = true) ∧
    (∀ t, (statusEntry s b p).lastOpened = some t →
      t ∈ (filteredOpens s b p.id).map (fun o => o.opened_at) ∧
      ∀ u ∈ (filteredOpens s b p.id).map (fun o => o.opened_at), strLe u t = true) := by
  refine ⟨?_, ?_, ?_, ?_, ?_, ?_, ?_⟩
  · unfold statusByEmail
    exact List.mem_map_of_mem _ (List.mem_filter.mpr ⟨hp, by simp [he]⟩)
  · exact filteredOpens_length_countP s b p.id
  · exact botOpens_length_countP s p.id
  · simp [statusEntry]
  · show minStr ((filteredOpens s b p.id).map (fun o => o.opened_at)) = none ↔
      (filteredOpens s b p.id).length = 0
    rw [minStr_eq_none, List.map_eq_nil_iff, List.length_eq_zero]
  · intro t h
    exact minStr_spec _ t h
  · intro t h
    exact maxStr_spec _ t h

/-- C5 witness: a googlebot-classified open of pixel `pb` is excluded from
`openCount` with `includeBots=false`, included with `includeBots=true`, and
always counted in `botOpenCount`; the classifier flags that user agent via
a `user-agent:` reason. -/
theorem status_by_email_spec_witness :
    statusEntry statusStore false botPixel ∈ statusByEmail statusStore "em2" false ∧
    (statusEntry statusStore false botPixel).openCount = 1 ∧
    (statusEntry statusStore false botPixel).botOpenCount = 1 ∧
    (statusEntry statusStore true botPixel).openCount = 2 ∧
    (statusEntry statusStore true botPixel).botOpenCount = 1 ∧
    isBot "Googlebot/2.1 (+http://www.google.com/bot.html)" (some "203.0.113.5")
      = { isBot := true, reason := some "user-agent: googlebot" } :=
  ⟨(status_by_email_spec statusStore "em2" false botPixel (by decide) rfl).1,
   by decide, by decide, by decide, by decide, by decide⟩

theorem range'_pairwise_lt (a n : Nat) :
    List.Pairwise (fun i j => i < j) (List.range' a n) := by
  induction n generalizing a with
  | zero => exact List.Pairwise.nil
  | succ n ih =>
    show List.Pairwise (fun i j => i < j) (a :: List.range' (a + 1) n)
    rw [List.pairwise_cons]
    refine ⟨?_, ih (a + 1)⟩
    intro m hm
    have := List.mem_range'_1.mp hm
    omega

theorem fetchSeq_spec (pid : String) (p : Pixel) (reqs : List FetchReq) :
    ∀ s : Store, s.pixels.find? (fun q => q.id == pid) = some p →
      (fetchSeq s pid reqs).pixels = s.pixels ∧
      ∃ newEvs : List OpenEvent,
        (fetchSeq s pid reqs).opens = s.opens ++ newEvs ∧
        (∀ e ∈ newEvs, e.pixel_id = pid) ∧
        newEvs.map (fun e => e.id) = List.range' s.nextOpenId reqs.length ∧
        newEvs.map (fun e => e.is_bot) =
          reqs.map (fun r => (isBot (r.ua.getD "") r.ip).isBot) := by
  induction reqs with
  | nil =>
    intro s hfind
    refine ⟨rfl, [], ?_, ?_, rfl, rfl⟩
    · exact (List.append_nil _).symm
    · intro e he
      cases he
  | cons r rs ih =>
    intro s hfind
    rw [fetchSeq]
    have hs1 : (handlePixelGif s pid r.ua r.ip r.now .ok).1
        = { s with
            opens := s.opens ++ [recordedEvent s pid r.ua r.ip r.now],
            nextOpenId := s.nextOpenId + 1 } := by
      simp [handlePixelGif, hfind]
    rw [hs1]
    obtain ⟨hpix, newEvs, hopens, hpids, hids, hbots⟩ :=
      ih { s with
            opens := s.opens ++ [recordedEvent s pid r.ua r.ip r.now],
            nextOpenId := s.nextOpenId + 1 } hfind
    refine ⟨hpix, recordedEvent s pid r.ua r.ip r.now :: newEvs, ?_, ?_, ?_, ?_⟩
    · rw [hopens]
      simp [List.append_assoc]
    · intro e he
      rcases List.mem_cons.mp he with rfl | he2
      · rfl
      · exact hpids e he2
    · rw [List.map_cons, hids]
      rfl
    · rw [List.map_cons, hbots]
      rfl

/-- C6: fetching an existing pixel N times with requests the classifier
does not flag appends exactly N open-event rows, all for that pixel and
none bot-classified, whose AUTOINCREMENT ids are consecutive and strictly
increasing; starting from a pixel with no recorded opens, the status view
of its email then reports `openCount = N` for that pixel. -/
theorem repeated_fetch_spec (s : Store) (pid : String) (p : Pixel) (b : Bool)
    (reqs : List FetchReq)
    (hfind : s.pixels.find? (fun q => q.id == pid) = some p)
    (hbot : ∀ r ∈ reqs, (isBot (r.ua.getD "") r.ip).isBot = false) :
    ∃ newEvs : List OpenEvent,
      (fetchSeq s pid reqs).opens = s.opens ++ newEvs ∧
      newEvs.length = reqs.length ∧
      (∀ e ∈ newEvs, e.pixel_id = pid ∧ e.is_bot = false) ∧
      newEvs.map (fun e => e.id) = List.range' s.nextOpenId reqs.length ∧
      List.Pairwise (fun i j => i < j) (newEvs.map (fun e => e.id)) ∧
      (opensFor s pid = [] →
        statusEntry (fetchSeq s pid reqs) b p ∈
          statusByEmail (fetchSeq s pid reqs) p.email_id b ∧
        (statusEntry (fetchSeq s pid reqs) b p).openCount = reqs.length) := by
  obtain ⟨hpix, newEvs, hopens, hpids, hids, hbots⟩ := fetchSeq_spec pid p reqs s hfind
  have hlen : newEvs.length = reqs.length := by
    have h1 := congrArg List.length hids
    rw [List.length_map, List.length_range'] at h1
    exact h1
  have hbote : ∀ e ∈ newEvs, e.is_bot = false := by
    intro e he
    have hmem : e.is_bot ∈ newEvs.map (fun e => e.is_bot) := List.mem_map_of_mem _ he
    rw [hbots] at hmem
    obtain ⟨r, hr, hfr⟩ := List.mem_map.mp hmem
    rw [← hfr]
    exact hbot r hr
  have hpide : p.id = pid := by
    have hp := List.find?_some hfind
    simpa using hp
  refine ⟨newEvs, hopens, hlen, ?_, hids, ?_, ?_⟩
  · intro e he
    exact ⟨hpids e he, hbote e he⟩
  · rw [hids]
    exact range'_pairwise_lt _ _
  · intro h0
    have hofor : opensFor (fetchSeq s pid reqs) p.id = newEvs := by
      rw [opensFor, hopens, List.filter_append]
      have h1 : s.opens.filter (fun o => o.pixel_id == p.id) = [] := by
        rw [hpide]
        exact h0
      have h2 : newEvs.filter (fun o => o.pixel_id == p.id) = newEvs := by
        apply List.filter_eq_self.mpr
        intro e he
        rw [hpids e he, hpide]
        exact beq_self_eq_true pid
      rw [h1, h2, List.nil_append]
    have hfiltered : filteredOpens (fetchSeq s pid reqs) b p.id = newEvs := by
      rw [filteredOpens, hofor]
      apply List.filter_eq_self.mpr
      intro e he
      rw [botFilterKeep, hbote e he]
      cases b <;> rfl
    constructor
    · rw [statusByEmail, hpix]
      exact List.mem_map_of_mem _
        (List.mem_filter.mpr ⟨List.mem_of_find?_eq_some hfind, by simp⟩)
    · show (filteredOpens (fetchSeq s pid reqs) b p.id).length = reqs.length
      rw [hfiltered, hlen]

/-- C6 witness: two clean fetches of the known pixel append two rows with
ids 1 and 2 and the status view reports two opens. -/
theorem repeated_fetch_spec_witness :
    (∃ newEvs : List OpenEvent,
      (fetchSeq onePixelStore "px1" fetchReqsTwo).opens = onePixelStore.opens ++ newEvs ∧
      newEvs.length = fetchReqsTwo.length ∧
      (∀ e ∈ newEvs, e.pixel_id = "px1" ∧ e.is_bot = false) ∧
      newEvs.map (fun e => e.id) = List.range' onePixelStore.nextOpenId fetchReqsTwo.length ∧
      List.Pairwise (fun i j => i < j) (newEvs.map (fun e => e.id)) ∧
      (opensFor onePixelStore "px1" = [] →
        statusEntry (fetchSeq onePixelStore "px1" fetchReqsTwo) false demoPixel ∈
          statusByEmail (fetchSeq onePixelStore "px1" fetchReqsTwo) demoPixel.email_id false ∧
        (statusEntry (fetchSeq onePixelStore "px1" fetchReqsTwo) false demoPixel).openCount =
          fetchReqsTwo.length)) ∧
    (fetchSeq onePixelStore "px1" fetchReqsTwo).opens.map (fun e => e.id) = [1, 2] ∧
    (statusEntry (fetchSeq onePixelStore "px1" fetchReqsTwo) false demoPixel).openCount = 2 :=
  ⟨repeated_fetch_spec onePixelStore "px1" demoPixel false fetchReqsTwo (by decide) (by decide),
   by decide, by decide⟩

/-- C8 counterexample: the history query orders only by `opened_at`, so on
a store whose pixel has two opens with the identical timestamp, both
orders of the two rows are valid responses of the query and they differ —
the output order of timestamp ties is not determined, in particular not by
the `id` ordering key. -/
theorem opens_history_tie_not_deterministic :
    opensHistoryResult tieStore "pt" [toOpenRow tieOpenA, toOpenRow tieOpenB] ∧
    opensHistoryResult tieStore "pt" [toOpenRow tieOpenB, toOpenRow tieOpenA] ∧
    [toOpenRow tieOpenA, toOpenRow tieOpenB] ≠ [toOpenRow tieOpenB, toOpenRow tieOpenA] :=
  ⟨⟨[tieOpenA, tieOpenB], by decide, by decide, rfl⟩,
   ⟨[tieOpenB, tieOpenA], List.Perm.swap tieOpenA tieOpenB [], by decide, rfl⟩,
   by decide⟩

/-- C8 amended: every response of the per-pixel history view consists of
exactly the events of that pixel (as a permutation of their projections),
ordered most recent first by `opened_at`; when the timestamps of the
events of the pixel are pairwise distinct this determines the response
uniquely, but the relative order of events with identical timestamps is
not constrained by the query. -/
theorem opens_history_sorted_complete (s : Store) (pid : String) (res : List OpenRow)
    (h : opensHistoryResult s pid res) :
    res.Perm ((opensFor s pid).map toOpenRow) ∧
    sortedDescBy (fun r => r.opened_at) res ∧
    (((opensFor s pid).map (fun o => o.opened_at)).Nodup →
      ∀ res2, opensHistoryResult s pid res2 → res2 = res) := by
  obtain ⟨l, hperm, hsort, hres⟩ := h
  subst hres
  refine ⟨hperm.map toOpenRow, ?_, ?_⟩
  · rw [sortedDescBy, List.pairwise_map]
    exact hsort
  · intro hnd res2 h2
    obtain ⟨l2, hperm2, hsort2, hres2⟩ := h2
    subst hres2
    have hnd1 : (l.map (fun o => o.opened_at)).Nodup :=
      ((hperm.map (fun o => o.opened_at)).nodup_iff).mpr hnd
    have hnd2 : (l2.map (fun o => o.opened_at)).Nodup :=
      ((hperm2.map (fun o => o.opened_at)).nodup_iff).mpr hnd
    have hne1 : List.Pairwise (fun a b : OpenEvent => a.opened_at ≠ b.opened_at) l :=
      List.pairwise_map.mp hnd1
    have hne2 : List.Pairwise (fun a b : OpenEvent => a.opened_at ≠ b.opened_at) l2 :=
      List.pairwise_map.mp hnd2
    have hstrict1 :
        List.Pairwise (fun a b : OpenEvent => strLt b.opened_at a.opened_at = true) l :=
      (hsort.and hne1).imp (fun hh => strLt_of_le_of_ne _ _ hh.1 (Ne.symm hh.2))
    have hstrict2 :
        List.Pairwise (fun a b : OpenEvent => strLt b.opened_at a.opened_at = true) l2 :=
      (hsort2.and hne2).imp (fun hh => strLt_of_le_of_ne _ _ hh.1 (Ne.symm hh.2))
    have hp12 : l2.Perm l := hperm2.trans hperm.symm
    haveI : IsAntisymm OpenEvent (fun a b => strLt b.opened_at a.opened_at = true) :=
      ⟨fun a b h1 h2 => by
        have h3 := strLt_asymm _ _ h1
        rw [h2] at h3
        cases h3⟩
    have hl : l2 = l := List.eq_of_perm_of_sorted hp12 hstrict2 hstrict1
    rw [hl]

/-- C8 amended witness: on a pixel with two distinct-time opens, the
sorted response is the unique permutation, most recent first. -/
theorem opens_history_sorted_complete_witness :
    ([toOpenRow histOpen2, toOpenRow histOpen1].Perm
        ((opensFor histStore "ph").map toOpenRow) ∧
      sortedDescBy (fun r => r.opened_at) [toOpenRow histOpen2, toOpenRow histOpen1] ∧
      (((opensFor histStore "ph").map (fun o => o.opened_at)).Nodup →
        ∀ res2, opensHistoryResult histStore "ph" res2 →
          res2 = [toOpenRow histOpen2, toOpenRow histOpen1])) :=
  opens_history_sorted_complete histStore "ph" [toOpenRow histOpen2, toOpenRow histOpen1]
    ⟨[histOpen2, histOpen1], List.Perm.swap histOpen1 histOpen2 [], by decide, rfl⟩

/-- C9: the dashboard holds at most one row per `email_id`, ordered most
recently sent first; each row sums the bot-filtered open counts and the
bot-open counts over the pixels of its email, and counts the distinct
recipients with at least one filtered open as well as all distinct
recipients; every distinct `email_id` gets its row whenever the limit
admits them all. -/
theorem dashboard_spec (s : Store) (limitQ : Option String) (b : Bool) :
    ((dashboard s limitQ b).map EmailRollup.email_id).Nodup ∧
    sortedDescBy EmailRollup.sent_at (dashboard s limitQ b) ∧
    (∀ row ∈ dashboard s limitQ b,
      row.email_id ∈ s.pixels.map Pixel.email_id ∧
      row.total_opens = ((pixelsOfEmail s row.email_id).map (fun p =>
        s.opens.countP (fun o =>
          decide (o.pixel_id = p.id ∧ (b = true ∨ o.is_bot = false))))).sum ∧
      row.bot_opens = ((pixelsOfEmail s row.email_id).map (fun p =>
        s.opens.countP (fun o => decide (o.pixel_id = p.id ∧ o.is_bot = true)))).sum ∧
      row.recipients_opened = (((pixelsOfEmail s row.email_id).filter (fun p =>
        decide (0 < (filteredOpens s b p.id).length))).map Pixel.recipient).toFinset.card ∧
      row.total_recipients =
        ((pixelsOfEmail s row.email_id).map Pixel.recipient).toFinset.card) ∧
    ((distinctEmailIds s).length ≤ (effLimit limitQ).toNat →
      ∀ eid ∈ distinctEmailIds s, ∃ row ∈ dashboard s limitQ b, row.email_id = eid) := by
  have hmapid :
      (((distinctEmailIds s).map (emailRollup s b)).map EmailRollup.email_id)
        = distinctEmailIds s := by
    rw [List.map_map]
    exact List.map_id _
  refine ⟨?_, ?_, ?_, ?_⟩
  · have hnd : (((sortDescBy EmailRollup.sent_at
        ((distinctEmailIds s).map (emailRollup s b))).map EmailRollup.email_id)).Nodup := by
      rw [((sortDescBy_perm EmailRollup.sent_at _).map EmailRollup.email_id).nodup_iff]
      rw [hmapid]
      exact List.nodup_dedup _
    exact List.Nodup.sublist ((applyLimit_sublist _ _).map _) hnd
  · exact List.Pairwise.sublist (applyLimit_sublist _ _) (sortDescBy_sorted _ _)
  · intro row hrow
    have hrow2 : row ∈ ((distinctEmailIds s).map (emailRollup s b)) :=
      (sortDescBy_perm _ _).mem_iff.mp ((applyLimit_sublist _ _).mem hrow)
    obtain ⟨eid, hin, heq⟩ := List.mem_map.mp hrow2
    subst heq
    refine ⟨?_, ?_, ?_, ?_, ?_⟩
    · exact List.mem_dedup.mp hin
    · exact congrArg List.sum
        (List.map_congr_left (fun p _ => filteredOpens_length_countP s b p.id))
    · exact congrArg List.sum
        (List.map_congr_left (fun p _ => botOpens_length_countP s p.id))
    · rw [List.card_toFinset]
      rfl
    · rw [List.card_toFinset]
      rfl
  · intro hlen eid hin
    refine ⟨emailRollup s b eid, ?_, rfl⟩
    have h1 : emailRollup s b eid ∈ (distinctEmailIds s).map (emailRollup s b) :=
      List.mem_map_of_mem _ hin
    have h2 : emailRollup s b eid ∈
        sortDescBy EmailRollup.sent_at ((distinctEmailIds s).map (emailRollup s b)) :=
      (sortDescBy_perm _ _).mem_iff.mpr h1
    rw [dashboard, applyLimit]
    by_cases hneg : effLimit limitQ < 0
    · rw [if_pos hneg]
      exact h2
    · rw [if_neg hneg]
      rw [List.take_of_length_le]
      · exact h2
      · rw [(sortDescBy_perm EmailRollup.sent_at _).length_eq, List.length_map]
        exact hlen

/-- C9 witness: three recipients of one email, two opens of which one is
bot-classified; with `includeBots=false` the rollup reports one open, one
bot open, one recipient opened, three recipients. -/
theorem dashboard_spec_witness :
    (emailRollup dashStore false "dm").email_id ∈ dashStore.pixels.map Pixel.email_id ∧
    (emailRollup dashStore false "dm").total_opens = 1 ∧
    (emailRollup dashStore false "dm").bot_opens = 1 ∧
    (emailRollup dashStore false "dm").recipients_opened = 1 ∧
    (emailRollup dashStore false "dm").total_recipients = 3 ∧
    dashboard dashStore none false = [emailRollup dashStore false "dm"] :=
  ⟨((dashboard_spec dashStore none false).2.2.1 (emailRollup dashStore false "dm")
      (by decide)).1,
   by decide, by decide, by decide, by decide, by decide⟩

theorem activity_opens_length (s : Store) (limitQ sinceQ : Option String) (b : Bool)
    (h : 0 ≤ effLimit limitQ) :
    (activity s limitQ sinceQ b).opens.length ≤ (effLimit limitQ).toNat :=
  applyLimit_length _ h _

/-- C10: when the `limit` query parameter is absent, has no parseable
integer prefix, or parses to 0, both the dashboard and the activity feed
behave exactly as with the default limit 50; when it parses to a positive
integer n, both views return at most n rows. -/
theorem limit_query_spec (s : Store) (b : Bool) (sinceQ : Option String) :
    (∀ q : Option String,
      (q = none ∨ ∃ str, q = some str ∧
        (jsParseInt str = none ∨ jsParseInt str = some 0)) →
      dashboard s q b = dashboard s (some "50") b ∧
      activity s q sinceQ b = activity s (some "50") sinceQ b) ∧
    (∀ str : String, ∀ n : Int, jsParseInt str = some n → 0 < n →
      (dashboard s (some str) b).length ≤ n.toNat ∧
      (activity s (some str) sinceQ b).opens.length ≤ n.toNat) := by
  have h50 : effLimit (some "50") = 50 := by decide
  constructor
  · intro q hq
    have heff : effLimit q = 50 := by
      rcases hq with rfl | ⟨str, rfl, hp | hp⟩
      · rfl
      · simp [effLimit, hp]
      · simp [effLimit, hp]
    constructor
    · rw [dashboard, dashboard, heff, h50]
    · simp only [activity, heff, h50]
  · intro str n hp hn
    have heff : effLimit (some str) = n := by
      simp only [effLimit, hp]
      rw [if_neg]
      omega
    have hl : (0 : Int) ≤ n := le_of_lt hn
    constructor
    · rw [dashboard, heff]
      exact applyLimit_length n hl _
    · have h := activity_opens_length s (some str) sinceQ b (by rw [heff]; exact hl)
      rw [heff] at h
      exact h

/-- C10 witness: a non-numeric limit behaves like the default 50, and a
limit of 2 caps the dashboard at two rows. -/
theorem limit_query_spec_witness :
    dashboard emptyStore (some "abc") false = dashboard emptyStore (some "50") false ∧
    (dashboard emptyStore (some "2") false).length ≤ (2 : Int).toNat :=
  ⟨((limit_query_spec emptyStore false none).1 (some "abc")
      (Or.inr ⟨"abc", rfl, Or.inl (by decide)⟩)).1,
   ((limit_query_spec emptyStore false none).2 "2" 2 (by decide) (by decide)).1⟩

end EmailTracker
